import Mathlib

/-!
Shallow embedding of the LockBlock backend core (game engine, reward pool,
room registry) from `src/services/lockBlock.js`, `src/services/rewardPool.js`
and `src/services/roomManager.js`.

Modelling conventions:
* JS numbers used as integer counters / coordinates are `Int` (or `Nat` for
  array indices); decimal USDC amounts, which the source stores as strings and
  converts with `parseFloat`, are modelled as `Rat` (exact values).  The
  binary-floating-point rounding the source actually incurs through
  `parseFloat` / `Number.prototype.toString` is NOT captured by this
  idealisation; it is treated separately where a claim depends on it.
* Wall-clock fields (`startTime`, `endTime`, `lastUpdated`, `createdAt`) are
  omitted: they are `Date.now()` I/O and no claim concerns them.
* A thrown JS exception is modelled as `Option.none`; a returned
  `{success:false, error}` object is an `Except.error`.
* JS `Map`s are modelled as association lists with `Map.set` semantics
  (replace the existing binding, else append).
-/

namespace LockBlock

/-- Character-wise lower-casing, written out over the underlying character
list so the canonicalization below is transparent to reason about. -/
def toLowerStr (s : String) : String :=
  String.mk (s.data.map Char.toLower)

/-- A canonical (case-normalized) account key: `0x` followed by 40 lower-case
hex digits. -/
def isCanonicalAddress (s : String) : Bool :=
  match s.data with
  | '0' :: 'x' :: rest =>
      rest.length == 40 && rest.all (fun c => c.isDigit || ('a' ≤ c && c ≤ 'f'))
  | _ => false

/-- Modelled from the spec (§3 Identity): `ethers.getAddress` from the
external `ethers` library canonicalizes a textual account address (0x + 40
hex digits, any letter case) to one canonical, case-normalized key, and
throws (`none`) on a malformed address.  The canonical key is modelled as the
lower-cased form; the source's EIP-55 checksummed form is an injective
renaming of it. -/
def getAddress (s : String) : Option String :=
  if isCanonicalAddress (toLowerStr s) then some (toLowerStr s) else none

/-- One level segment, from `generateInitialChunks` in `lockBlock.js`. -/
structure Chunk where
  id : Nat
  name : String
  difficulty : Nat
  obstacles : List String
  collectibles : List String
  completed : Bool
  deriving DecidableEq, Repr

/-- 2D player position (`player.position`). -/
structure Position where
  x : Int
  y : Int
  deriving DecidableEq, Repr

/-- `gameState.player`. -/
structure Player where
  eoa : String
  position : Position
  lives : Int
  score : Int
  deriving DecidableEq, Repr

/-- `'win'` / `'lose'`; `gameResult` is `Option GameResult` (null = ongoing). -/
inductive GameResult where
  | win
  | lose
  deriving DecidableEq, Repr

/-- The game state of `lockBlock.js` (timestamps omitted, see module header).
`rewardPoolTotal` is the `rewardPool.totalAmount` snapshot and `entryDeposit`
the wager, both decimal USDC amounts modelled as `Rat`. -/
structure GameState where
  player : Player
  chunks : List Chunk
  currentChunk : Nat
  isGameOver : Bool
  gameResult : Option GameResult
  rewardPoolTotal : Rat
  entryDeposit : Rat
  deriving DecidableEq, Repr

/-- `generateInitialChunks` in `lockBlock.js`. -/
def generateInitialChunks : List Chunk :=
  [ { id := 0, name := "Tutorial Chunk", difficulty := 1,
      obstacles := ["pit", "spike"], collectibles := ["coin", "powerup"],
      completed := false },
    { id := 1, name := "Forest Chunk", difficulty := 2,
      obstacles := ["pit", "spike", "enemy"], collectibles := ["coin", "gem"],
      completed := false },
    { id := 2, name := "Mountain Chunk", difficulty := 3,
      obstacles := ["pit", "spike", "enemy", "moving_platform"],
      collectibles := ["coin", "gem", "treasure"], completed := false } ]

/-- `createGame` in `lockBlock.js`: formats the address (throwing — `none` —
on a malformed one) and builds the initial state. -/
def createGame (playerEoa : String) (entryDeposit : Rat) (currentPoolAmount : Rat) :
    Option GameState :=
  (getAddress playerEoa).map fun formattedPlayerEoa =>
    { player :=
        { eoa := formattedPlayerEoa
          position := { x := 0, y := 0 }
          lives := 3
          score := 0 }
      chunks := generateInitialChunks
      currentChunk := 0
      isGameOver := false
      gameResult := none
      rewardPoolTotal := currentPoolAmount
      entryDeposit := entryDeposit }

/-- The action payloads of `processAction`'s `switch`.  The source dispatches
on the untyped strings `action.type`, `data.direction`, `data.objectType`;
those strings are kept verbatim and `other` stands for any unrecognized
`action.type` (the `default:` branch).  `distance` defaults to 1 and `value`
to 10 at the destructuring site in the source; callers of this model pass the
resolved values. -/
inductive Action where
  | move (direction : String) (distance : Int)
  | jump
  | interact (objectType : String) (value : Int)
  | complete_chunk
  | lose_life
  | other
  deriving DecidableEq, Repr

/-- The `newPosition` computation of `processMovement` in `lockBlock.js`:
one axis translated, `left`/`up` clamped at 0 by `Math.max`, unknown
direction falls through unchanged. -/
def movePos (p : Position) (direction : String) (distance : Int) : Position :=
  if direction = "left" then { p with x := max 0 (p.x - distance) }
  else if direction = "right" then { p with x := p.x + distance }
  else if direction = "up" then { p with y := max 0 (p.y - distance) }
  else if direction = "down" then { p with y := p.y + distance }
  else p

/-- `processMovement` in `lockBlock.js`: replaces the player position with
the translated one. -/
def processMovement (gameState : GameState) (direction : String) (distance : Int) :
    GameState :=
  { gameState with
      player :=
        { gameState.player with
            position := movePos gameState.player.position direction distance } }

/-- `processJump` in `lockBlock.js`: sugar for moving up with distance 2. -/
def processJump (gameState : GameState) : GameState :=
  processMovement gameState "up" 2

/-- `processInteraction` in `lockBlock.js`: score deltas per object type,
unknown object type is a no-op. -/
def processInteraction (gameState : GameState) (objectType : String) (value : Int) :
    GameState :=
  let score := gameState.player.score
  let newScore :=
    if objectType = "coin" then score + value
    else if objectType = "gem" then score + value * 2
    else if objectType = "treasure" then score + value * 5
    else if objectType = "powerup" then score + value
    else score
  { gameState with player := { gameState.player with score := newScore } }

/-- `processChunkCompletion` in `lockBlock.js`.  The source writes
`updatedChunks[gameState.currentChunk].completed = true`, which throws
(`none`) when `currentChunk` is out of range; in range it marks the chunk
completed, advances `currentChunk` unless the next index is past the end, and
adds the fixed +100 bonus. -/
def processChunkCompletion (gameState : GameState) : Option GameState :=
  if h : gameState.currentChunk < gameState.chunks.length then
    let updatedChunks :=
      gameState.chunks.set gameState.currentChunk
        { gameState.chunks.get ⟨gameState.currentChunk, h⟩ with completed := true }
    let nextChunk := gameState.currentChunk + 1
    let isGameComplete := decide (updatedChunks.length ≤ nextChunk)
    some
      { gameState with
          chunks := updatedChunks
          currentChunk := if isGameComplete then gameState.currentChunk else nextChunk
          player :=
            { gameState.player with score := gameState.player.score + 100 } }
  else none

/-- `processLifeLoss` in `lockBlock.js`: lives floor at 0, position reset. -/
def processLifeLoss (gameState : GameState) : GameState :=
  { gameState with
      player :=
        { gameState.player with
            lives := max 0 (gameState.player.lives - 1)
            position := { x := 0, y := 0 } } }

/-- `checkGameOverConditions` in `lockBlock.js`: the loss check
(`lives <= 0`) runs first, then the win check (all chunks completed) runs and
overwrites `isGameOver`/`gameResult` when it fires. -/
def checkGameOverConditions (gameState : GameState) : GameState :=
  let afterLoss : Bool × Option GameResult :=
    if gameState.player.lives ≤ 0 then (true, some GameResult.lose)
    else (false, none)
  let allChunksCompleted := gameState.chunks.all (fun chunk => chunk.completed)
  let afterWin :=
    if allChunksCompleted then (true, some GameResult.win) else afterLoss
  { gameState with isGameOver := afterWin.1, gameResult := afterWin.2 }

/-- The failure objects `processAction` returns. -/
inductive GameError where
  | gameOver
  | notYourGame
  | invalidAction
  deriving DecidableEq, Repr

/-- `processAction` in `lockBlock.js`: formats the requester address
(throwing — `none` — on a malformed one), rejects when the game is over or
the requester is not the owner, otherwise dispatches on the action type and
runs the terminal-condition evaluation on the result. -/
def processAction (gameState : GameState) (action : Action) (playerEoa : String) :
    Option (Except GameError GameState) :=
  match getAddress playerEoa with
  | none => none
  | some formattedPlayerEoa =>
    if gameState.isGameOver then some (Except.error GameError.gameOver)
    else if gameState.player.eoa ≠ formattedPlayerEoa then
      some (Except.error GameError.notYourGame)
    else
      match action with
      | Action.move direction distance =>
          some (Except.ok (checkGameOverConditions
            (processMovement gameState direction distance)))
      | Action.jump =>
          some (Except.ok (checkGameOverConditions (processJump gameState)))
      | Action.interact objectType value =>
          some (Except.ok (checkGameOverConditions
            (processInteraction gameState objectType value)))
      | Action.complete_chunk =>
          (processChunkCompletion gameState).map fun updated =>
            Except.ok (checkGameOverConditions updated)
      | Action.lose_life =>
          some (Except.ok (checkGameOverConditions (processLifeLoss gameState)))
      | Action.other => some (Except.error GameError.invalidAction)

/-- The reward-pool ledger of `rewardPool.js` (`lastUpdated` omitted).
`totalAmount` is the decimal USDC string of the source, modelled as its exact
numeric value. -/
structure RewardPool where
  totalAmount : Rat
  totalGames : Nat
  totalWins : Nat
  totalLosses : Nat
  deriving DecidableEq, Repr

/-- The initial `globalRewardPool` of `rewardPool.js`. -/
def initialRewardPool : RewardPool :=
  { totalAmount := 0, totalGames := 0, totalWins := 0, totalLosses := 0 }

/-- `addToRewardPool` in `rewardPool.js`, as explicit state passing over the
process-wide `globalRewardPool`: adds the amount, bumps `totalLosses` and
`totalGames`, and returns the new total (the source's `try` never fails —
`parseFloat` does not throw). -/
def addToRewardPool (pool : RewardPool) (amount : Rat) : RewardPool × Rat :=
  let updated : RewardPool :=
    { pool with
        totalAmount := pool.totalAmount + amount
        totalLosses := pool.totalLosses + 1
        totalGames := pool.totalGames + 1 }
  (updated, updated.totalAmount)

/-- The failure object of `withdrawFromRewardPool`. -/
inductive PoolError where
  | emptyPool
  deriving DecidableEq, Repr

/-- `withdrawFromRewardPool` in `rewardPool.js`: fails (mutating nothing)
when the current total is ≤ 0, otherwise hands the caller the entire total,
resets it to exactly 0 and bumps `totalWins` and `totalGames`. -/
def withdrawFromRewardPool (pool : RewardPool) : RewardPool × Except PoolError Rat :=
  if pool.totalAmount ≤ 0 then
    (pool, Except.error PoolError.emptyPool)
  else
    ({ pool with
         totalAmount := 0
         totalWins := pool.totalWins + 1
         totalGames := pool.totalGames + 1 },
     Except.ok pool.totalAmount)

/-- `resetRewardPool` in `rewardPool.js`: zeroes everything and reports the
previous total. -/
def resetRewardPool (pool : RewardPool) : RewardPool × Rat :=
  (initialRewardPool, pool.totalAmount)

/-- One ledger operation, used to describe the pool states reachable from the
initial ledger through `addToRewardPool` / `withdrawFromRewardPool` /
`resetRewardPool`. -/
inductive PoolOp where
  | deposit (amount : Rat)
  | withdraw
  | reset
  deriving DecidableEq, Repr

/-- Applies one ledger operation (dropping the returned value). -/
def applyPoolOp (pool : RewardPool) (op : PoolOp) : RewardPool :=
  match op with
  | PoolOp.deposit amount => (addToRewardPool pool amount).1
  | PoolOp.withdraw => (withdrawFromRewardPool pool).1
  | PoolOp.reset => (resetRewardPool pool).1

/-! ## Room registry (`roomManager.js`)

JS `Map`s become association lists with `Map.set` semantics. -/

/-- `Map.prototype.get` (as `Option`). -/
def mapGet (m : List (String × α)) (k : String) : Option α :=
  (m.find? (fun p => p.1 == k)).map (fun p => p.2)

/-- `Map.prototype.has`. -/
def mapHas (m : List (String × α)) (k : String) : Bool :=
  (mapGet m k).isSome

/-- `Map.prototype.set`: replace the existing binding, else append. -/
def mapSet (m : List (String × α)) (k : String) (v : α) : List (String × α) :=
  match m with
  | [] => [(k, v)]
  | (k', v') :: rest =>
      if k' == k then (k, v) :: rest else (k', v') :: mapSet rest k v

/-- A room of `roomManager.js` (`rewardInfo` — a point-in-time pool
projection never read by any modelled operation — and `createdAt` omitted;
the `ws` connection handles are opaque, so `connections` keeps only its keys,
the bound identities). -/
structure Room where
  id : String
  playerEoa : Option String
  playerEntryDeposit : Rat
  connections : List String
  gameState : Option GameState
  isReady : Bool
  gameStarted : Bool
  difficulty : String
  deriving DecidableEq, Repr

/-- The closed-over state of `createRoomManager`: the `rooms` map and the
`addressToRoom` index. -/
structure RoomManager where
  rooms : List (String × Room)
  addressToRoom : List (String × String)
  deriving DecidableEq, Repr

/-- The failure objects of the registry operations.  `engine e` is
`processPlayerAction` forwarding the engine's own failure object. -/
inductive RoomError where
  | alreadyInRoom
  | roomNotFound
  | roomOccupied
  | invalidDeposit
  | notInRoom
  | notStarted
  | engine (e : GameError)
  deriving DecidableEq, Repr

/-- `validateEntryDeposit` in `rewardPool.js`: rejects a negative deposit,
accepts zero (free game) and anything positive. -/
def validateEntryDeposit (entryDeposit : Rat) : Bool :=
  decide (0 ≤ entryDeposit)

/-- `createRoom` in `roomManager.js`: inserts a fresh empty room under the
given (uuid-generated) id. -/
def createRoom (rm : RoomManager) (roomId : String) (entryDeposit : Rat)
    (difficulty : String) : RoomManager :=
  { rm with
      rooms := mapSet rm.rooms roomId
        { id := roomId
          playerEoa := none
          playerEntryDeposit := entryDeposit
          connections := []
          gameState := none
          isReady := false
          gameStarted := false
          difficulty := difficulty } }

/-- The success payload of `joinRoom` (`rewardInfo` omitted, see `Room`). -/
structure JoinResult where
  roomId : String
  role : String
  isRoomReady : Bool
  entryDeposit : Rat
  deriving DecidableEq, Repr

/-- `joinRoom` in `roomManager.js`: formats the address (throwing — `none` —
on a malformed one), then fails without mutating anything when the identity is
already indexed, the room is absent, the room is occupied, or the deposit is
invalid; otherwise binds the identity and connection to the room, marks it
ready and indexes identity→room. -/
def joinRoom (rm : RoomManager) (roomId : String) (eoa : String) :
    Option (RoomManager × Except RoomError JoinResult) :=
  match getAddress eoa with
  | none => none
  | some formattedEoa =>
    if mapHas rm.addressToRoom formattedEoa then
      some (rm, Except.error RoomError.alreadyInRoom)
    else if ¬ mapHas rm.rooms roomId then
      some (rm, Except.error RoomError.roomNotFound)
    else
      match mapGet rm.rooms roomId with
      | none => none
      | some room =>
        if room.playerEoa.isSome then
          some (rm, Except.error RoomError.roomOccupied)
        else if ¬ validateEntryDeposit room.playerEntryDeposit then
          some (rm, Except.error RoomError.invalidDeposit)
        else
          let updatedRoom :=
            { room with
                playerEoa := some formattedEoa
                connections := formattedEoa :: room.connections
                isReady := true }
          some
            ({ rooms := mapSet rm.rooms roomId updatedRoom
               addressToRoom := mapSet rm.addressToRoom formattedEoa roomId },
             Except.ok
               { roomId := roomId
                 role := "player"
                 isRoomReady := true
                 entryDeposit := room.playerEntryDeposit })

/-- `processPlayerAction` in `roomManager.js`: formats the address, resolves
the room, requires the requester's connection and a started game, delegates to
the engine's `processAction`, and stores the new state only on engine
success. -/
def processPlayerAction (rm : RoomManager) (roomId : String) (action : Action)
    (eoa : String) : Option (RoomManager × Except RoomError GameState) :=
  match getAddress eoa with
  | none => none
  | some formattedEoa =>
    if ¬ mapHas rm.rooms roomId then
      some (rm, Except.error RoomError.roomNotFound)
    else
      match mapGet rm.rooms roomId with
      | none => none
      | some room =>
        if ¬ room.connections.contains formattedEoa then
          some (rm, Except.error RoomError.notInRoom)
        else
          match room.gameState with
          | none => some (rm, Except.error RoomError.notStarted)
          | some gameState =>
            match processAction gameState action formattedEoa with
            | none => none
            | some (Except.error e) => some (rm, Except.error (RoomError.engine e))
            | some (Except.ok newState) =>
                some
                  ({ rm with
                       rooms := mapSet rm.rooms roomId
                         { room with gameState := some newState } },
                   Except.ok newState)

/-! ## Shared helper lemmas and concrete fixtures -/

instance {ε α : Type} [DecidableEq ε] [DecidableEq α] : DecidableEq (Except ε α) :=
  fun x y =>
    match x, y with
    | Except.error a, Except.error b =>
        if h : a = b then isTrue (by rw [h]) else isFalse (by simp [h])
    | Except.error _, Except.ok _ => isFalse (by simp)
    | Except.ok _, Except.error _ => isFalse (by simp)
    | Except.ok a, Except.ok b =>
        if h : a = b then isTrue (by rw [h]) else isFalse (by simp [h])

/-- `Map.get` after `Map.set` of the same key yields the new value. -/
theorem mapGet_mapSet_self (m : List (String × α)) (k : String) (v : α) :
    mapGet (mapSet m k v) k = some v := by
  induction m with
  | nil => simp [mapSet, mapGet]
  | cons p rest ih =>
      obtain ⟨k', v'⟩ := p
      by_cases h : k' = k
      · simp [mapSet, mapGet, h]
      · simpa [mapSet, mapGet, h] using ih

/-- `Map.has` after `Map.set` of the same key. -/
theorem mapHas_mapSet_self (m : List (String × α)) (k : String) (v : α) :
    mapHas (mapSet m k v) k = true := by
  simp [mapHas, mapGet_mapSet_self]

/-- `Map.has` holds at any key `Map.get` resolves. -/
theorem mapHas_of_mapGet (m : List (String × α)) (k : String) (v : α)
    (h : mapGet m k = some v) : mapHas m k = true := by
  simp [mapHas, h]

/-- A canonical test identity. -/
def addrA : String := "0x1111111111111111111111111111111111111111"

/-- A game state in which a single `lose_life` transition makes both terminal
conditions (no lives left, all chunks completed) hold at once. -/
def tieState : GameState :=
  { player := { eoa := addrA, position := { x := 0, y := 0 }, lives := 1, score := 0 }
    chunks := generateInitialChunks.map (fun c => { c with completed := true })
    currentChunk := 2
    isGameOver := false
    gameResult := none
    rewardPoolTotal := 0
    entryDeposit := 1 }

/-- A game state on which both terminal conditions already hold. -/
def tieStateB : GameState :=
  { player := { eoa := addrA, position := { x := 0, y := 0 }, lives := 0, score := 300 }
    chunks := generateInitialChunks.map (fun c => { c with completed := true })
    currentChunk := 2
    isGameOver := false
    gameResult := none
    rewardPoolTotal := 0
    entryDeposit := 1 }

/-! ## Claim theorems -/

/-- C1, counterexample: from `tieState` the single `lose_life` transition
makes both terminal conditions hold (lives hit 0 and every chunk is
completed), yet the terminal-condition evaluation reports result = win, not
the loss the claim says is the reported tie-break: the win check runs after
the loss check and overwrites its verdict. -/
theorem tie_break_counterexample :
    (processLifeLoss tieState).player.lives ≤ 0
    ∧ (processLifeLoss tieState).chunks.all (fun c => c.completed) = true
    ∧ processAction tieState Action.lose_life addrA
        = some (Except.ok (checkGameOverConditions (processLifeLoss tieState)))
    ∧ (checkGameOverConditions (processLifeLoss tieState)).gameResult
        = some GameResult.win
    ∧ (checkGameOverConditions (processLifeLoss tieState)).gameResult
        ≠ some GameResult.lose := by
  decide

/-- C1, amended: the loss check (`lives <= 0`) runs before the win check
(all chunks completed), but because the win check runs second and overwrites
the verdict, on any state where both terminal conditions hold the evaluation
reports result = win (win, not loss, is the effective tie-break). -/
theorem tie_break_reports_win (gs : GameState)
    (_hl : gs.player.lives ≤ 0)
    (hc : gs.chunks.all (fun c => c.completed) = true) :
    (checkGameOverConditions gs).isGameOver = true
    ∧ (checkGameOverConditions gs).gameResult = some GameResult.win := by
  simp [checkGameOverConditions, hc]

/-- Witness for `tie_break_reports_win` at the concrete state `tieStateB`. -/
theorem tie_break_reports_win_witness :
    (checkGameOverConditions tieStateB).isGameOver = true
    ∧ (checkGameOverConditions tieStateB).gameResult = some GameResult.win :=
  tie_break_reports_win tieStateB (by decide) (by decide)

/-- C3: once `isGameOver` is set, `processAction` rejects every action from
every (well-formed) requester identity with the GameOver error, and the
registry's `processPlayerAction` forwards that error while leaving the whole
registry state — rooms and index — unchanged. -/
theorem game_over_rejects_all_actions (gs : GameState) (a : Action) (eoa f : String)
    (hf : getAddress eoa = some f) (hover : gs.isGameOver = true) :
    processAction gs a eoa = some (Except.error GameError.gameOver)
    ∧ ∀ (rm : RoomManager) (roomId : String) (room : Room),
        mapGet rm.rooms roomId = some room
        → room.connections.contains f = true
        → room.gameState = some gs
        → getAddress f = some f
        → processPlayerAction rm roomId a eoa
            = some (rm, Except.error (RoomError.engine GameError.gameOver)) := by
  constructor
  · simp [processAction, hf, hover]
  · intro rm roomId room hroom hconn hgs hff
    have hconn' : f ∈ room.connections := by simpa using hconn
    simp [processPlayerAction, hf, mapHas_of_mapGet _ _ _ hroom, hroom, hconn', hgs,
      processAction, hff, hover]

/-- A terminated copy of `tieStateB`. -/
def overState : GameState :=
  { tieStateB with isGameOver := true, gameResult := some GameResult.lose }

/-- A room holding `overState`, occupied by `addrA`. -/
def overRoom : Room :=
  { id := "room1", playerEoa := some addrA, playerEntryDeposit := 1,
    connections := [addrA], gameState := some overState,
    isReady := true, gameStarted := true, difficulty := "normal" }

/-- A one-room registry holding `overRoom`. -/
def overRM : RoomManager :=
  { rooms := [("room1", overRoom)], addressToRoom := [(addrA, "room1")] }

/-- Witness for `game_over_rejects_all_actions` at a concrete terminated game
inside a concrete one-room registry. -/
theorem game_over_rejects_all_actions_witness :
    processAction overState Action.jump addrA = some (Except.error GameError.gameOver)
    ∧ processPlayerAction overRM "room1" Action.jump addrA
        = some (overRM, Except.error (RoomError.engine GameError.gameOver)) := by
  have h := game_over_rejects_all_actions overState Action.jump addrA addrA
    (by decide) (by decide)
  exact ⟨h.1, h.2 overRM "room1" overRoom (by decide) (by decide) rfl (by decide)⟩

/-- C4: `withdrawFromRewardPool` on a pool whose total is ≤ 0 fails with
EmptyPool leaving the total and every counter untouched; on a pool with a
positive total it pays out the entire total, resets the total to exactly 0,
and bumps `totalWins` and `totalGames` by one each (leaving `totalLosses`
untouched). -/
theorem withdraw_spec (pool : RewardPool) :
    (pool.totalAmount ≤ 0 →
      withdrawFromRewardPool pool = (pool, Except.error PoolError.emptyPool))
    ∧ (0 < pool.totalAmount →
      withdrawFromRewardPool pool =
        ({ pool with
             totalAmount := 0
             totalWins := pool.totalWins + 1
             totalGames := pool.totalGames + 1 },
         Except.ok pool.totalAmount)) := by
  constructor
  · intro h; simp [withdrawFromRewardPool, h]
  · intro h; simp [withdrawFromRewardPool, not_le.mpr h]

/-- Witness for `withdraw_spec`: the empty branch at the initial pool, the
payout branch at a pool holding 5 USDC. -/
theorem withdraw_spec_witness :
    withdrawFromRewardPool initialRewardPool
      = (initialRewardPool, Except.error PoolError.emptyPool)
    ∧ withdrawFromRewardPool
        { totalAmount := 5, totalGames := 3, totalWins := 1, totalLosses := 2 }
      = ({ totalAmount := 0, totalGames := 4, totalWins := 2, totalLosses := 2 },
         Except.ok 5) :=
  ⟨(withdraw_spec initialRewardPool).1 (by decide),
   (withdraw_spec { totalAmount := 5, totalGames := 3, totalWins := 1, totalLosses := 2 }).2
     (by decide)⟩

/-- C5: on any non-terminal game state with `currentChunk` in range,
`complete_chunk` marks `chunks[currentChunk]` completed, adds exactly +100 to
the score, and advances `currentChunk` by one unless it is already the last
index — so the resulting `currentChunk` never exceeds `len(chunks) - 1`.  The
equation holds whether or not `chunks[currentChunk]` was already completed
(an already-completed chunk is re-marked and the +100 bonus re-granted: the
action is not idempotent). -/
theorem complete_chunk_spec (gs : GameState)
    (_hno : gs.isGameOver = false) (h : gs.currentChunk < gs.chunks.length) :
    processChunkCompletion gs = some
      { gs with
          chunks := gs.chunks.set gs.currentChunk
            { gs.chunks.get ⟨gs.currentChunk, h⟩ with completed := true }
          currentChunk :=
            if gs.currentChunk + 1 < gs.chunks.length then gs.currentChunk + 1
            else gs.currentChunk
          player := { gs.player with score := gs.player.score + 100 } }
    ∧ ∀ gs', processChunkCompletion gs = some gs' →
        gs'.currentChunk ≤ gs.chunks.length - 1 := by
  constructor
  · simp only [processChunkCompletion, dif_pos h, Option.some.injEq]
    have hlen : (gs.chunks.set gs.currentChunk
        { gs.chunks.get ⟨gs.currentChunk, h⟩ with completed := true }).length
        = gs.chunks.length := by simp
    by_cases hadv : gs.currentChunk + 1 < gs.chunks.length
    · simp [hlen, hadv, Nat.not_le.mpr hadv]
    · have hle : gs.chunks.length ≤ gs.currentChunk + 1 := Nat.not_lt.mp hadv
      simp [hlen, hadv, hle]
  · intro gs' hgs'
    simp only [processChunkCompletion, dif_pos h, Option.some.injEq] at hgs'
    subst hgs'
    simp only [List.length_set]
    by_cases hadv : gs.chunks.length ≤ gs.currentChunk + 1
    · simp [hadv]; omega
    · simp [hadv]; omega

/-- Witness for `complete_chunk_spec` at a fresh game: the first chunk is
marked completed, the score becomes 100, and `currentChunk` advances to 1. -/
theorem complete_chunk_spec_witness :
    processChunkCompletion tieState = some
      { tieState with
          chunks := tieState.chunks.set tieState.currentChunk
            { tieState.chunks.get ⟨tieState.currentChunk, by decide⟩ with completed := true }
          currentChunk :=
            if tieState.currentChunk + 1 < tieState.chunks.length
            then tieState.currentChunk + 1 else tieState.currentChunk
          player := { tieState.player with score := tieState.player.score + 100 } }
    ∧ ∀ gs', processChunkCompletion tieState = some gs' →
        gs'.currentChunk ≤ tieState.chunks.length - 1 :=
  complete_chunk_spec tieState (by decide) (by decide)

/-- The counter relation claimed to be a pool invariant. -/
def poolBalanced (p : RewardPool) : Prop :=
  p.totalGames = p.totalWins + p.totalLosses

instance (p : RewardPool) : Decidable (poolBalanced p) := by
  unfold poolBalanced; infer_instance

/-- C7: `totalGames = totalWins + totalLosses` holds for the initial pool, is
preserved by every pool operation (deposit, withdraw, reset), and therefore
holds in every pool state reachable by any operation sequence. -/
theorem pool_counter_invariant :
    poolBalanced initialRewardPool
    ∧ (∀ (p : RewardPool) (op : PoolOp), poolBalanced p → poolBalanced (applyPoolOp p op))
    ∧ ∀ ops : List PoolOp, poolBalanced (ops.foldl applyPoolOp initialRewardPool) := by
  have hstep : ∀ (p : RewardPool) (op : PoolOp),
      poolBalanced p → poolBalanced (applyPoolOp p op) := by
    intro p op hp
    cases op with
    | deposit amount =>
        simp only [applyPoolOp, addToRewardPool, poolBalanced] at *
        omega
    | withdraw =>
        simp only [applyPoolOp, withdrawFromRewardPool, poolBalanced] at *
        split
        · exact hp
        · simp; omega
    | reset => simp [applyPoolOp, resetRewardPool, initialRewardPool, poolBalanced]
  refine ⟨rfl, hstep, ?_⟩
  have hfold : ∀ (ops : List PoolOp) (p : RewardPool), poolBalanced p →
      poolBalanced (ops.foldl applyPoolOp p) := by
    intro ops
    induction ops with
    | nil => intro p hp; exact hp
    | cons op rest ih => intro p hp; exact ih _ (hstep p op hp)
  exact fun ops => hfold ops initialRewardPool rfl

/-- Witness for `pool_counter_invariant`: the single-step preservation applied
at a concrete balanced pool and a deposit, plus a concrete operation
sequence. -/
theorem pool_counter_invariant_witness :
    poolBalanced (applyPoolOp
      { totalAmount := 2, totalGames := 3, totalWins := 1, totalLosses := 2 }
      (PoolOp.deposit 1))
    ∧ poolBalanced
        ([PoolOp.deposit 1, PoolOp.deposit 2, PoolOp.withdraw, PoolOp.reset].foldl
          applyPoolOp initialRewardPool) :=
  ⟨pool_counter_invariant.2.1
      { totalAmount := 2, totalGames := 3, totalWins := 1, totalLosses := 2 }
      (PoolOp.deposit 1) (by decide),
   pool_counter_invariant.2.2 [PoolOp.deposit 1, PoolOp.deposit 2, PoolOp.withdraw, PoolOp.reset]⟩

/-! ## Movement sequences (C9) -/

/-- A `move` action payload: direction string and distance. -/
abbrev MovePayload := String × Int

/-- A valid `move` action: a recognized direction and distance ≥ 1. -/
def validMove (m : MovePayload) : Prop :=
  (m.1 = "left" ∨ m.1 = "right" ∨ m.1 = "up" ∨ m.1 = "down") ∧ 1 ≤ m.2

instance (m : MovePayload) : Decidable (validMove m) := by
  unfold validMove; infer_instance

/-- Applies a sequence of `move` actions through the engine. -/
def runMoves (gameState : GameState) (ms : List MovePayload) : GameState :=
  ms.foldl (fun g m => processMovement g m.1 m.2) gameState

/-- The same sequence at the position level. -/
def runMovesPos (p : Position) (ms : List MovePayload) : Position :=
  ms.foldl (fun q m => movePos q m.1 m.2) p

/-- Total distance of the `right` moves in a sequence. -/
def sumRights : List MovePayload → Int
  | [] => 0
  | m :: rest => (if m.1 = "right" then m.2 else 0) + sumRights rest

/-- Total distance of the `down` moves in a sequence. -/
def sumDowns : List MovePayload → Int
  | [] => 0
  | m :: rest => (if m.1 = "down" then m.2 else 0) + sumDowns rest

/-- What the clamped `left` moves actually subtract from the x axis along a
run (a `left` of distance `d` at position `p` subtracts `min d p.x`). -/
def clampLossX (p : Position) : List MovePayload → Int
  | [] => 0
  | m :: rest =>
      (if m.1 = "left" then min m.2 p.x else 0) + clampLossX (movePos p m.1 m.2) rest

/-- What the clamped `up` moves actually subtract from the y axis along a
run. -/
def clampLossY (p : Position) : List MovePayload → Int
  | [] => 0
  | m :: rest =>
      (if m.1 = "up" then min m.2 p.y else 0) + clampLossY (movePos p m.1 m.2) rest

/-- `runMoves` only ever touches the player position, via `movePos`. -/
theorem runMoves_position (gameState : GameState) (ms : List MovePayload) :
    (runMoves gameState ms).player.position =
      runMovesPos gameState.player.position ms := by
  induction ms generalizing gameState with
  | nil => rfl
  | cons m rest ih =>
      simpa [runMoves, runMovesPos, processMovement] using
        ih (processMovement gameState m.1 m.2)

/-- Position-level accumulation: starting from any non-negative position,
both axes stay non-negative, and each axis ends at start + (sum of the
away-from-origin distances) − (what the clamped moves actually subtracted). -/
theorem runMovesPos_spec (ms : List MovePayload) (p : Position)
    (hx : 0 ≤ p.x) (hy : 0 ≤ p.y) (hvalid : ∀ m ∈ ms, validMove m) :
    0 ≤ (runMovesPos p ms).x ∧ 0 ≤ (runMovesPos p ms).y
    ∧ (runMovesPos p ms).x = p.x + sumRights ms - clampLossX p ms
    ∧ (runMovesPos p ms).y = p.y + sumDowns ms - clampLossY p ms := by
  induction ms generalizing p with
  | nil => exact ⟨hx, hy, by simp [runMovesPos, sumRights, clampLossX],
      by simp [runMovesPos, sumDowns, clampLossY]⟩
  | cons m rest ih =>
      obtain ⟨hdir, hdist⟩ := hvalid m (List.mem_cons_self m rest)
      have hrest : ∀ x ∈ rest, validMove x :=
        fun x hmem => hvalid x (List.mem_cons_of_mem _ hmem)
      have hstep : runMovesPos p (m :: rest) = runMovesPos (movePos p m.1 m.2) rest := rfl
      rcases hdir with hd | hd | hd | hd <;>
      · have hx' : 0 ≤ (movePos p m.1 m.2).x := by simp [movePos, hd] <;> omega
        have hy' : 0 ≤ (movePos p m.1 m.2).y := by simp [movePos, hd] <;> omega
        obtain ⟨ihx, ihy, ihex, ihey⟩ := ih (movePos p m.1 m.2) hx' hy' hrest
        refine ⟨by rw [hstep]; exact ihx, by rw [hstep]; exact ihy, ?_, ?_⟩ <;>
        · simp only [hstep, sumRights, sumDowns, clampLossX, clampLossY, ihex, ihey]
          simp [movePos, hd] <;> omega

/-- C9: for every sequence of valid `move` actions applied from position
(0,0), the clamped axes never go negative, and each axis equals the total
distance of the moves away from origin (`right` for x, `down` for y) minus
exactly what the clamped (`left`/`up`) moves actually subtracted — so
right/down movement is unbounded and accumulates exactly. -/
theorem move_sequence_accumulation (gameState : GameState) (ms : List MovePayload)
    (hpos : gameState.player.position = { x := 0, y := 0 })
    (hvalid : ∀ m ∈ ms, validMove m) :
    0 ≤ (runMoves gameState ms).player.position.x
    ∧ 0 ≤ (runMoves gameState ms).player.position.y
    ∧ (runMoves gameState ms).player.position.x
        = sumRights ms - clampLossX { x := 0, y := 0 } ms
    ∧ (runMoves gameState ms).player.position.y
        = sumDowns ms - clampLossY { x := 0, y := 0 } ms := by
  have h := runMovesPos_spec ms { x := 0, y := 0 } (le_refl 0) (le_refl 0) hvalid
  rw [runMoves_position, hpos]
  obtain ⟨h1, h2, h3, h4⟩ := h
  exact ⟨h1, h2, by rw [h3]; ring_nf, by rw [h4]; ring_nf⟩

/-- Witness for `move_sequence_accumulation` on a concrete run: right 3,
left 5 (clamped: only 3 subtracted), down 2, up 1, right 4 ends at (4, 1). -/
theorem move_sequence_accumulation_witness :
    0 ≤ (runMoves tieState [("right", 3), ("left", 5), ("down", 2), ("up", 1),
          ("right", 4)]).player.position.x
    ∧ 0 ≤ (runMoves tieState [("right", 3), ("left", 5), ("down", 2), ("up", 1),
          ("right", 4)]).player.position.y
    ∧ (runMoves tieState [("right", 3), ("left", 5), ("down", 2), ("up", 1),
          ("right", 4)]).player.position.x
        = sumRights [("right", 3), ("left", 5), ("down", 2), ("up", 1), ("right", 4)]
          - clampLossX { x := 0, y := 0 }
              [("right", 3), ("left", 5), ("down", 2), ("up", 1), ("right", 4)]
    ∧ (runMoves tieState [("right", 3), ("left", 5), ("down", 2), ("up", 1),
          ("right", 4)]).player.position.y
        = sumDowns [("right", 3), ("left", 5), ("down", 2), ("up", 1), ("right", 4)]
          - clampLossY { x := 0, y := 0 }
              [("right", 3), ("left", 5), ("down", 2), ("up", 1), ("right", 4)] :=
  move_sequence_accumulation tieState
    [("right", 3), ("left", 5), ("down", 2), ("up", 1), ("right", 4)]
    (by decide) (by decide)

/-- Inverting a successful `joinRoom`: the identity was not indexed before,
and afterwards the index carries exactly the new identity→room binding. -/
theorem joinRoom_success_inversion (rm : RoomManager) (roomId eoa f : String)
    (rm' : RoomManager) (jr : JoinResult)
    (hf : getAddress eoa = some f)
    (hsucc : joinRoom rm roomId eoa = some (rm', Except.ok jr)) :
    mapHas rm.addressToRoom f = false
    ∧ rm'.addressToRoom = mapSet rm.addressToRoom f roomId := by
  unfold joinRoom at hsucc
  rw [hf] at hsucc
  by_cases h1 : mapHas rm.addressToRoom f
  · simp [h1] at hsucc
  · refine ⟨by simpa using h1, ?_⟩
    by_cases h2 : mapHas rm.rooms roomId
    · rcases hget : mapGet rm.rooms roomId with _ | room
      · rw [mapHas, hget] at h2; simp at h2
      · rw [hget] at hsucc
        by_cases hocc : room.playerEoa.isSome
        · simp [h1, h2, hocc] at hsucc
        · by_cases hdep : validateEntryDeposit room.playerEntryDeposit
          · simp [h1, h2, hocc, hdep] at hsucc
            rw [← hsucc.1]
          · simp [h1, h2, hocc, hdep] at hsucc
    · simp [h1, h2] at hsucc

/-- C6: with a well-formed identity, `joinRoom` fails with AlreadyInRoom when
the canonical identity is already indexed, with RoomNotFound when the room id
is absent, and with RoomOccupied when the room already has an occupant — each
failing branch returning the registry (rooms and identity→room index)
unchanged; and after a successful join, a second `joinRoom` with the same
identity against any room fails with AlreadyInRoom, again with the registry
unchanged, while the index still maps the identity to the first room. -/
theorem joinRoom_failure_spec (rm : RoomManager) (roomId eoa f : String)
    (hf : getAddress eoa = some f) :
    (mapHas rm.addressToRoom f = true →
      joinRoom rm roomId eoa = some (rm, Except.error RoomError.alreadyInRoom))
    ∧ (mapHas rm.addressToRoom f = false → mapHas rm.rooms roomId = false →
      joinRoom rm roomId eoa = some (rm, Except.error RoomError.roomNotFound))
    ∧ (∀ room occupant, mapHas rm.addressToRoom f = false →
        mapGet rm.rooms roomId = some room → room.playerEoa = some occupant →
        joinRoom rm roomId eoa = some (rm, Except.error RoomError.roomOccupied))
    ∧ (∀ rm' jr roomId2 eoa2, joinRoom rm roomId eoa = some (rm', Except.ok jr) →
        getAddress eoa2 = some f →
        joinRoom rm' roomId2 eoa2 = some (rm', Except.error RoomError.alreadyInRoom)
        ∧ mapGet rm'.addressToRoom f = some roomId) := by
  refine ⟨?_, ?_, ?_, ?_⟩
  · intro h1; simp [joinRoom, hf, h1]
  · intro h1 h2; simp [joinRoom, hf, h1, h2]
  · intro room occupant h1 hget hocc
    simp [joinRoom, hf, h1, mapHas_of_mapGet _ _ _ hget, hget, hocc]
  · intro rm' jr roomId2 eoa2 hsucc hf2
    obtain ⟨h1, hidx⟩ := joinRoom_success_inversion rm roomId eoa f rm' jr hf hsucc
    exact ⟨by simp [joinRoom, hf2, hidx, mapHas_mapSet_self],
      by rw [hidx]; exact mapGet_mapSet_self _ _ _⟩

/-- A second canonical test identity. -/
def addrB : String := "0x2222222222222222222222222222222222222222"

/-- An empty, never-occupied room. -/
def emptyRoom (roomId : String) : Room :=
  { id := roomId, playerEoa := none, playerEntryDeposit := 1, connections := [],
    gameState := none, isReady := false, gameStarted := false, difficulty := "normal" }

/-- A registry holding two empty rooms and an empty index. -/
def rmTwoRooms : RoomManager :=
  { rooms := [("room1", emptyRoom "room1"), ("room2", emptyRoom "room2")]
    addressToRoom := [] }

/-- The success payload of `addrA` joining `room1` in `rmTwoRooms`. -/
def jrA : JoinResult :=
  { roomId := "room1", role := "player", isRoomReady := true, entryDeposit := 1 }

/-- The room `room1` after `addrA` occupied it. -/
def occupiedRoom1 : Room :=
  { emptyRoom "room1" with
      playerEoa := some addrA, connections := [addrA], isReady := true }

/-- `rmTwoRooms` after `addrA` joined `room1`. -/
def rmJoined : RoomManager :=
  { rooms := [("room1", occupiedRoom1), ("room2", emptyRoom "room2")]
    addressToRoom := [(addrA, "room1")] }

/-- Witness for `joinRoom_failure_spec`: on the concrete two-room registry,
a join to a missing room fails RoomNotFound; after `addrA` joins `room1`, a
second join by `addrA` to `room2` fails AlreadyInRoom with the index still at
`room1`, and `addrB` joining the occupied `room1` fails RoomOccupied. -/
theorem joinRoom_failure_spec_witness :
    joinRoom rmTwoRooms "room3" addrA
      = some (rmTwoRooms, Except.error RoomError.roomNotFound)
    ∧ (joinRoom rmJoined "room2" addrA
        = some (rmJoined, Except.error RoomError.alreadyInRoom)
      ∧ mapGet rmJoined.addressToRoom addrA = some "room1")
    ∧ joinRoom rmJoined "room1" addrB
      = some (rmJoined, Except.error RoomError.roomOccupied) := by
  refine ⟨(joinRoom_failure_spec rmTwoRooms "room3" addrA addrA (by decide)).2.1
      (by decide) (by decide), ?_, ?_⟩
  · exact (joinRoom_failure_spec rmTwoRooms "room1" addrA addrA (by decide)).2.2.2
      rmJoined jrA "room2" addrA (by decide) (by decide)
  · exact (joinRoom_failure_spec rmJoined "room1" addrB addrB (by decide)).2.2.1
      occupiedRoom1 addrA (by decide) (by decide) (by decide)

/-- C8: two textual representations of the same account address that differ
only in letter case (equal after lower-casing) canonicalize to the same key,
so (i) the engine treats them identically — `processAction` gives the same
result for either casing, and never rejects an action with NotYourGame when
the requester is any casing of the owning identity of a live game — and
(ii) after one casing joins a room, a `joinRoom` with the other casing fails
with AlreadyInRoom instead of creating a second player. -/
theorem identity_case_insensitive (s t : String) (hcase : toLowerStr s = toLowerStr t) :
    getAddress s = getAddress t
    ∧ (∀ (gs : GameState) (a : Action), processAction gs a s = processAction gs a t)
    ∧ (∀ (gs : GameState) (a : Action) (f : String), getAddress t = some f →
        gs.player.eoa = f → gs.isGameOver = false →
        processAction gs a t ≠ some (Except.error GameError.notYourGame))
    ∧ (∀ (rm rm' : RoomManager) (roomId1 roomId2 : String) (jr : JoinResult),
        joinRoom rm roomId1 s = some (rm', Except.ok jr) →
        joinRoom rm' roomId2 t = some (rm', Except.error RoomError.alreadyInRoom)) := by
  have hga : getAddress s = getAddress t := by simp [getAddress, hcase]
  refine ⟨hga, ?_, ?_, ?_⟩
  · intro gs a; unfold processAction; rw [hga]
  · intro gs a f hft hown hng
    cases a <;> cases hpc : processChunkCompletion gs <;>
      simp [processAction, hft, hng, hown, hpc]
  · intro rm rm' roomId1 roomId2 jr hsucc
    rcases hgs : getAddress s with _ | f
    · rw [joinRoom, hgs] at hsucc; cases hsucc
    · have hft : getAddress t = some f := hga ▸ hgs
      obtain ⟨h1, hidx⟩ := joinRoom_success_inversion rm roomId1 s f rm' jr hgs hsucc
      simp [joinRoom, hft, hidx, mapHas_mapSet_self]

/-- A variant of `addrB` with the `x` of its `0x` prefix upper-cased (the
two strings differ only in letter case). -/
def addrBUpper : String := "0X2222222222222222222222222222222222222222"

/-- A live (non-terminal) game owned by `addrB`. -/
def liveGameB : GameState :=
  { player := { eoa := addrB, position := { x := 0, y := 0 }, lives := 2, score := 50 }
    chunks := generateInitialChunks
    currentChunk := 0
    isGameOver := false
    gameResult := none
    rewardPoolTotal := 0
    entryDeposit := 1 }

/-- `room1` occupied by the canonical form of `addrBUpper`, i.e. `addrB`. -/
def room1ByB : Room :=
  { emptyRoom "room1" with
      playerEoa := some addrB, connections := [addrB], isReady := true }

/-- `rmTwoRooms` after `addrBUpper` joined `room1` (indexed canonically). -/
def rmJoinedB : RoomManager :=
  { rooms := [("room1", room1ByB), ("room2", emptyRoom "room2")]
    addressToRoom := [(addrB, "room1")] }

/-- Witness for `identity_case_insensitive` on the concrete pair `addrBUpper`
/ `addrB`: same canonical key, identical engine result for a jump, no
NotYourGame rejection for the upper-cased requester of `addrB`'s game, and an
AlreadyInRoom failure when the lower casing tries `room2` after the upper
casing joined `room1`. -/
theorem identity_case_insensitive_witness :
    getAddress addrBUpper = getAddress addrB
    ∧ processAction liveGameB Action.jump addrBUpper
        = processAction liveGameB Action.jump addrB
    ∧ processAction liveGameB Action.jump addrB
        ≠ some (Except.error GameError.notYourGame)
    ∧ joinRoom rmJoinedB "room2" addrB
        = some (rmJoinedB, Except.error RoomError.alreadyInRoom) := by
  have h := identity_case_insensitive addrBUpper addrB (by decide)
  refine ⟨h.1, h.2.1 liveGameB Action.jump, ?_, ?_⟩
  · exact h.2.2.1 liveGameB Action.jump addrB (by decide) (by decide) (by decide)
  · exact h.2.2.2 rmTwoRooms rmJoinedB "room1" "room2" jrA (by decide)

/-- The initial chunk list with the first `k` chunks marked completed. -/
def completedChunks (k : Nat) : List Chunk :=
  (generateInitialChunks.take k).map (fun c => { c with completed := true })
    ++ generateInitialChunks.drop k

/-- The game state of a fresh game owned by canonical identity `f` after `k`
straight `complete_chunk` actions (k ≤ 3). -/
def winState (f : String) (dep pool : Rat) (k : Nat) : GameState :=
  { player :=
      { eoa := f, position := { x := 0, y := 0 }, lives := 3, score := 100 * (k : Int) }
    chunks := completedChunks k
    currentChunk := min k 2
    isGameOver := decide (3 ≤ k)
    gameResult := if 3 ≤ k then some GameResult.win else none
    rewardPoolTotal := pool
    entryDeposit := dep }

/-- C10: `createGame` yields lives 3, score 0, position (0,0), chunk index 0,
game not over, no result, and exactly three chunks none completed; from that
state three straight `complete_chunk` actions produce result = win, with the
game still live (not over, no result) after the first and the second. -/
theorem fresh_game_wins_after_three (eoa f : String) (dep pool : Rat)
    (hf : getAddress eoa = some f) :
    createGame eoa dep pool = some (winState f dep pool 0)
    ∧ (winState f dep pool 0).player.lives = 3
    ∧ (winState f dep pool 0).player.score = 0
    ∧ (winState f dep pool 0).player.position = { x := 0, y := 0 }
    ∧ (winState f dep pool 0).currentChunk = 0
    ∧ (winState f dep pool 0).isGameOver = false
    ∧ (winState f dep pool 0).gameResult = none
    ∧ (winState f dep pool 0).chunks.length = 3
    ∧ (winState f dep pool 0).chunks.all (fun c => !c.completed) = true
    ∧ processAction (winState f dep pool 0) Action.complete_chunk eoa
        = some (Except.ok (winState f dep pool 1))
    ∧ (winState f dep pool 1).isGameOver = false
    ∧ (winState f dep pool 1).gameResult = none
    ∧ processAction (winState f dep pool 1) Action.complete_chunk eoa
        = some (Except.ok (winState f dep pool 2))
    ∧ (winState f dep pool 2).isGameOver = false
    ∧ (winState f dep pool 2).gameResult = none
    ∧ processAction (winState f dep pool 2) Action.complete_chunk eoa
        = some (Except.ok (winState f dep pool 3))
    ∧ (winState f dep pool 3).isGameOver = true
    ∧ (winState f dep pool 3).gameResult = some GameResult.win := by
  refine ⟨?_, rfl, by norm_num [winState], rfl, rfl, rfl, rfl, rfl, rfl, ?_, rfl, rfl,
    ?_, rfl, rfl, ?_, rfl, rfl⟩
  · simp [createGame, hf, winState, completedChunks]
  all_goals
    simp [processAction, hf, winState, completedChunks, generateInitialChunks,
      processChunkCompletion, checkGameOverConditions]

/-- Witness for `fresh_game_wins_after_three` at the concrete identity
`addrA`, deposit 1, pool 0. -/
theorem fresh_game_wins_after_three_witness :
    createGame addrA 1 0 = some (winState addrA 1 0 0)
    ∧ (winState addrA 1 0 0).player.lives = 3
    ∧ (winState addrA 1 0 0).player.score = 0
    ∧ (winState addrA 1 0 0).player.position = { x := 0, y := 0 }
    ∧ (winState addrA 1 0 0).currentChunk = 0
    ∧ (winState addrA 1 0 0).isGameOver = false
    ∧ (winState addrA 1 0 0).gameResult = none
    ∧ (winState addrA 1 0 0).chunks.length = 3
    ∧ (winState addrA 1 0 0).chunks.all (fun c => !c.completed) = true
    ∧ processAction (winState addrA 1 0 0) Action.complete_chunk addrA
        = some (Except.ok (winState addrA 1 0 1))
    ∧ (winState addrA 1 0 1).isGameOver = false
    ∧ (winState addrA 1 0 1).gameResult = none
    ∧ processAction (winState addrA 1 0 1) Action.complete_chunk addrA
        = some (Except.ok (winState addrA 1 0 2))
    ∧ (winState addrA 1 0 2).isGameOver = false
    ∧ (winState addrA 1 0 2).gameResult = none
    ∧ processAction (winState addrA 1 0 2) Action.complete_chunk addrA
        = some (Except.ok (winState addrA 1 0 3))
    ∧ (winState addrA 1 0 3).isGameOver = true
    ∧ (winState addrA 1 0 3).gameResult = some GameResult.win :=
  fresh_game_wins_after_three addrA addrA 1 0 (by decide)

end LockBlock
